import Mathlib

/-!
Shallow embedding of `src/custom.ts` (the MakeCode "Smart Car" package):
an MPU6050 heading estimator plus a two-phase turn controller.

Modelling choices:
* JavaScript numbers that hold angles, rates and the bias are modelled as `ℚ`;
  `control.millis()` timestamps are modelled as `ℤ` (milliseconds).
* The motor actuator calls `wuKong.setAllMotor(l, r)` and `wuKong.stopAllMotor()`
  are recorded as a trace of `Cmd` events; `basic.pause`, the display icons and
  the i2c register writes have no effect on the modelled state.
* Sensor readings and clock values are supplied by environment functions: the
  value `readRawGyroZ()` returns and the value `control.millis()` returns at
  each call site are inputs of the model.
* The two `while` loops of `turn` are modelled with explicit fuel; a result of
  `none` means the loop was still running when the fuel ran out (the source
  loop would still be running after that many iterations).
-/

namespace smartCar

/-- The source's `enum TurnDirection { Left, Right }`. -/
inductive TurnDirection
  | Left
  | Right
deriving DecidableEq, Repr

/-- One motor actuator event: `wuKong.setAllMotor(l, r)` or `wuKong.stopAllMotor()`. -/
inductive Cmd
  | setAll (l r : ℤ)
  | stopAll
deriving DecidableEq, Repr

/-- The module-level mutable variables of the `smartCar` namespace:
`gyro_offset`, `last_time`, `current_angle`, `is_initialized`
(src/custom.ts lines 10-12 and 23). -/
structure CarState where
  gyro_offset : ℚ
  last_time : ℤ
  current_angle : ℚ
  is_initialized : Bool
deriving DecidableEq, Repr

/-- Line 15: `const CORRECTION_SPEED = 25`. -/
def CORRECTION_SPEED : ℤ := 25

/-- Line 16: `const BRAKE_DURATION = 100` (milliseconds of the reverse pulse). -/
def BRAKE_DURATION : ℤ := 100

/-- The function `updateAngle()` (lines 142-149): read `now = control.millis()`,
set `dt = (now - last_time) / 1000`, set `last_time = now`, then add
`(readRawGyroZ() - gyro_offset) * dt` to `current_angle`.  `reading` is the
value `readRawGyroZ()` returns during this call. -/
def updateAngle (s : CarState) (now : ℤ) (reading : ℚ) : CarState :=
  { s with
    last_time := now
    current_angle :=
      s.current_angle + (reading - s.gyro_offset) * (((now - s.last_time : ℤ) : ℚ) / 1000) }

/-- The calibration loop's running sum (lines 41-45):
`for (let i = 0; i < n; i++) { sum += readRawGyroZ() }`, where `readings i`
is the value the `i`-th call returns. -/
def calibSum (readings : ℕ → ℚ) : ℕ → ℚ
  | 0 => 0
  | n + 1 => calibSum readings n + readings n

/-- The function `setupAndCalibrate()` (lines 31-50): wake the sensor, set
`is_initialized = true`, sum 20 `readRawGyroZ()` readings and store
`sum / 20` in `gyro_offset`.  The i2c writes, icons and pauses do not touch
the modelled state. -/
def setupAndCalibrate (s : CarState) (readings : ℕ → ℚ) : CarState :=
  { s with
    is_initialized := true
    gyro_offset := calibSum readings 20 / 20 }

/-- Lines 69-71 of `turn`: `speed = Math.abs(speed); if (speed < 20) speed = 20;
if (speed > 100) speed = 100`. -/
def clampSpeed (speed : ℤ) : ℤ :=
  let s1 := |speed|
  let s2 := if s1 < 20 then 20 else s1
  if s2 > 100 then 100 else s2

/-- Lines 77-86 of `turn`: the rough-phase motor values.
Left turn: left motor reverse, right motor forward; Right turn mirrored. -/
def motorVals (direction : TurnDirection) (speed : ℤ) : ℤ × ℤ :=
  match direction with
  | TurnDirection.Left => (-speed, speed)
  | TurnDirection.Right => (speed, -speed)

/-- Lines 91-92 of `turn`: `let stop_early_buffer = 15;
if (speed < 40) stop_early_buffer = 8`. -/
def stop_early_buffer (speed : ℤ) : ℚ :=
  if speed < 40 then 8 else 15

/-- The rough-turn loop (lines 98-101): `while (Math.abs(current_angle) <
rough_target) { updateAngle(); basic.pause(10) }`.  `env i` supplies the
`control.millis()` value and the `readRawGyroZ()` value consumed by the `i`-th
iteration's `updateAngle()`.  The loop body issues no motor command.  `none`
means the fuel ran out with the loop condition still true. -/
def roughLoop (rough_target : ℚ) (env : ℕ → ℤ × ℚ) :
    ℕ → ℕ → CarState → Option CarState
  | 0, _, s => if |s.current_angle| < rough_target then none else some s
  | fuel + 1, i, s =>
    if |s.current_angle| < rough_target then
      roughLoop rough_target env fuel (i + 1) (updateAngle s (env i).1 (env i).2)
    else some s

/-- Lines 121-125: the undershoot command of the correction loop,
`CORRECTION_SPEED` in the original rotation direction. -/
def sameDirCmd : TurnDirection → Cmd
  | TurnDirection.Left => Cmd.setAll (-CORRECTION_SPEED) CORRECTION_SPEED
  | TurnDirection.Right => Cmd.setAll CORRECTION_SPEED (-CORRECTION_SPEED)

/-- Lines 128-132: the overshoot command of the correction loop,
`CORRECTION_SPEED` opposite to the original rotation direction. -/
def oppDirCmd : TurnDirection → Cmd
  | TurnDirection.Left => Cmd.setAll CORRECTION_SPEED (-CORRECTION_SPEED)
  | TurnDirection.Right => Cmd.setAll (-CORRECTION_SPEED) CORRECTION_SPEED

/-- The correction loop (lines 113-135): `while (Math.abs(Math.abs(current_angle)
- target_angle) > 1 && (control.millis() - start_fix < 3000))`; each iteration
calls `updateAngle()`, then commands the motors at `CORRECTION_SPEED` in the
original direction when `Math.abs(current_angle) < target_angle` and in the
opposite direction otherwise.  For iteration `i`, `(env i).1` is the
`control.millis()` value read in the loop condition, `(env i).2.1` the one read
inside `updateAngle()`, and `(env i).2.2` the `readRawGyroZ()` value.  Returns
the final state and the commands issued, oldest first; `none` means the fuel
ran out with the loop condition still true. -/
def correctionLoop (direction : TurnDirection) (target_angle : ℚ) (start_fix : ℤ)
    (env : ℕ → ℤ × ℤ × ℚ) : ℕ → ℕ → CarState → Option (CarState × List Cmd)
  | 0, i, s =>
    if 1 < |(|s.current_angle| - target_angle)| ∧ (env i).1 - start_fix < 3000 then
      none
    else some (s, [])
  | fuel + 1, i, s =>
    if 1 < |(|s.current_angle| - target_angle)| ∧ (env i).1 - start_fix < 3000 then
      match correctionLoop direction target_angle start_fix env fuel (i + 1)
          (updateAngle s (env i).2.1 (env i).2.2) with
      | none => none
      | some (s2, cmds) =>
        some (s2,
          (if |(updateAngle s (env i).2.1 (env i).2.2).current_angle| < target_angle then
            sameDirCmd direction
          else oppDirCmd direction) :: cmds)
    else some (s, [])

/-- The function `turn(direction, target_angle, speed)` (lines 62-138).
`t0` is the `control.millis()` value read at line 66 and `start_fix` the one
read at line 110; `roughEnv` and `corrEnv` supply clock and sensor values to
the two loops, whose iteration counts are bounded by the fuels (the source has
no such bound: `none` means a loop was still running after fuel-many
iterations).  On completion, returns the final state and the full motor-command
trace: the rough-phase command, the reverse brake pulse, the stop after the
brake, the correction commands, and the final stop. -/
def turn (s : CarState) (direction : TurnDirection) (target_angle : ℚ) (speed : ℤ)
    (t0 : ℤ) (roughEnv : ℕ → ℤ × ℚ) (start_fix : ℤ) (corrEnv : ℕ → ℤ × ℤ × ℚ)
    (roughFuel corrFuel : ℕ) : Option (CarState × List Cmd) :=
  if s.is_initialized = false then some (s, [])
  else
    match roughLoop (target_angle - stop_early_buffer (clampSpeed speed)) roughEnv
        roughFuel 0 { s with current_angle := 0, last_time := t0 } with
    | none => none
    | some s2 =>
      match correctionLoop direction target_angle start_fix corrEnv corrFuel 0 s2 with
      | none => none
      | some (s3, corrCmds) =>
        some (s3,
          Cmd.setAll (motorVals direction (clampSpeed speed)).1
              (motorVals direction (clampSpeed speed)).2 ::
            Cmd.setAll (-(motorVals direction (clampSpeed speed)).1)
              (-(motorVals direction (clampSpeed speed)).2) ::
            Cmd.stopAll :: (corrCmds ++ [Cmd.stopAll]))

/-- A sequence of `updateAngle()` calls: `ticks` lists, in order, the pair of
the `control.millis()` value and the `readRawGyroZ()` value consumed by each
call. -/
def tickSeq (s : CarState) : List (ℤ × ℚ) → CarState
  | [] => s
  | t :: rest => tickSeq (updateAngle s t.1 t.2) rest

/-- The value `readRawGyroZ()` produces when the i2c transaction fails: the
MakeCode runtime's `pins.i2cReadBuffer` does not raise, it hands back zeroed
data, so lines 154-162 turn a failed read into the rate `0 / 131 = 0`. -/
def failedReadings : ℕ → ℚ := fun _ => 0

/-- A state that has never been calibrated: the initial values of the module
variables at lines 10-12 and 23. -/
def initialState : CarState :=
  { gyro_offset := 0, last_time := 0, current_angle := 0, is_initialized := false }

section Helpers

/-- The sequential calibration sum equals the finite sum of the readings. -/
theorem calibSum_eq_sum (readings : ℕ → ℚ) :
    ∀ n, calibSum readings n = ∑ i ∈ Finset.range n, readings i := by
  intro n
  induction n with
  | zero => simp [calibSum]
  | succ n ih => rw [calibSum, ih, Finset.sum_range_succ]

/-- `updateAngle` writes only `last_time` and `current_angle`. -/
theorem updateAngle_frame (s : CarState) (now : ℤ) (reading : ℚ) :
    (updateAngle s now reading).gyro_offset = s.gyro_offset ∧
      (updateAngle s now reading).is_initialized = s.is_initialized :=
  ⟨rfl, rfl⟩

/-- The rough loop writes only `last_time` and `current_angle`. -/
theorem roughLoop_frame (rough_target : ℚ) (env : ℕ → ℤ × ℚ) :
    ∀ fuel i s s', roughLoop rough_target env fuel i s = some s' →
      s'.gyro_offset = s.gyro_offset ∧ s'.is_initialized = s.is_initialized := by
  intro fuel
  induction fuel with
  | zero =>
    intro i s s' h
    by_cases hc : |s.current_angle| < rough_target <;>
      simp [roughLoop, hc] at h <;> simp [← h]
  | succ fuel ih =>
    intro i s s' h
    by_cases hc : |s.current_angle| < rough_target
    · simp only [roughLoop, if_pos hc] at h
      have := ih (i + 1) (updateAngle s (env i).1 (env i).2) s' h
      simpa [updateAngle] using this
    · simp [roughLoop, hc] at h
      simp [← h]

/-- The correction loop writes only `last_time` and `current_angle`. -/
theorem correctionLoop_frame (direction : TurnDirection) (target_angle : ℚ)
    (start_fix : ℤ) (env : ℕ → ℤ × ℤ × ℚ) :
    ∀ fuel i s s' cmds,
      correctionLoop direction target_angle start_fix env fuel i s = some (s', cmds) →
      s'.gyro_offset = s.gyro_offset ∧ s'.is_initialized = s.is_initialized := by
  intro fuel
  induction fuel with
  | zero =>
    intro i s s' cmds h
    by_cases hc : 1 < |(|s.current_angle| - target_angle)| ∧ (env i).1 - start_fix < 3000 <;>
      simp [correctionLoop, hc] at h <;> simp [← h.1]
  | succ fuel ih =>
    intro i s s' cmds h
    by_cases hc : 1 < |(|s.current_angle| - target_angle)| ∧ (env i).1 - start_fix < 3000
    · simp only [correctionLoop, if_pos hc] at h
      rcases hrec : correctionLoop direction target_angle start_fix env fuel (i + 1)
          (updateAngle s (env i).2.1 (env i).2.2) with _ | ⟨s2, cmds2⟩
      · rw [hrec] at h; exact absurd h (by simp)
      · rw [hrec] at h
        simp only [Option.some.injEq, Prod.mk.injEq] at h
        have := ih (i + 1) (updateAngle s (env i).2.1 (env i).2.2) s2 cmds2 hrec
        rw [← h.1]
        simpa [updateAngle] using this
    · simp [correctionLoop, hc] at h
      simp [← h.1]

/-- `tickSeq` never touches `gyro_offset`. -/
theorem tickSeq_gyro_offset :
    ∀ (ticks : List (ℤ × ℚ)) (s : CarState), (tickSeq s ticks).gyro_offset = s.gyro_offset := by
  intro ticks
  induction ticks with
  | nil => intro s; rfl
  | cons t rest ih =>
    intro s
    rw [tickSeq, ih]
    rfl

/-- Rectangular integration of a constant calibrated rate telescopes: every
tick adds `R` times its own elapsed time, so any tick schedule accumulates
`R * (total elapsed ms) / 1000`. -/
theorem tickSeq_linear (R : ℚ) :
    ∀ (ticks : List (ℤ × ℚ)) (s : CarState),
      (∀ tr ∈ ticks, tr.2 - s.gyro_offset = R) →
      (tickSeq s ticks).current_angle
        = s.current_angle
          + R * (((tickSeq s ticks).last_time - s.last_time : ℤ) : ℚ) / 1000 := by
  intro ticks
  induction ticks with
  | nil =>
    intro s _
    simp [tickSeq]
  | cons t rest ih =>
    intro s hR
    have hhead : t.2 - s.gyro_offset = R := hR t (List.mem_cons_self t rest)
    have htail : ∀ tr ∈ rest, tr.2 - (updateAngle s t.1 t.2).gyro_offset = R := by
      intro tr htr
      exact hR tr (List.mem_cons_of_mem t htr)
    rw [tickSeq, ih (updateAngle s t.1 t.2) htail]
    have hlast : (updateAngle s t.1 t.2).last_time = t.1 := rfl
    have hangle : (updateAngle s t.1 t.2).current_angle
        = s.current_angle + R * ((t.1 - s.last_time : ℤ) : ℚ) / 1000 := by
      show s.current_angle + (t.2 - s.gyro_offset) * (((t.1 - s.last_time : ℤ) : ℚ) / 1000)
          = s.current_angle + R * ((t.1 - s.last_time : ℤ) : ℚ) / 1000
      rw [hhead]
      ring
    rw [hangle, hlast]
    push_cast
    ring

/-- If every reading equals the stored bias, `updateAngle` leaves
`current_angle` unchanged, so a started rough loop never meets its exit
condition, whatever its fuel. -/
theorem roughLoop_stuck (rough_target : ℚ) (env : ℕ → ℤ × ℚ) :
    ∀ fuel i s, (∀ j, (env j).2 = s.gyro_offset) → |s.current_angle| < rough_target →
      roughLoop rough_target env fuel i s = none := by
  intro fuel
  induction fuel with
  | zero =>
    intro i s _ hlt
    simp [roughLoop, hlt]
  | succ fuel ih =>
    intro i s henv hlt
    rw [roughLoop, if_pos hlt]
    apply ih
    · intro j
      show (env j).2 = s.gyro_offset
      exact henv j
    · show |(updateAngle s (env i).1 (env i).2).current_angle| < rough_target
      have hsame : (updateAngle s (env i).1 (env i).2).current_angle = s.current_angle := by
        show s.current_angle + ((env i).2 - s.gyro_offset) * _ = s.current_angle
        rw [henv i]
        ring
      rw [hsame]
      exact hlt

/-- The command trace `turn` builds on completion always ends in the final
`stopAllMotor` of line 136. -/
theorem trace_getLast (a b : Cmd) (l : List Cmd) :
    (a :: b :: Cmd.stopAll :: (l ++ [Cmd.stopAll])).getLast? = some Cmd.stopAll := by
  have h : a :: b :: Cmd.stopAll :: (l ++ [Cmd.stopAll])
      = (a :: b :: Cmd.stopAll :: l) ++ [Cmd.stopAll] := by simp
  rw [h, List.getLast?_append_cons]
  rfl

/-- Every command the correction loop issues is one of the two fixed
`CORRECTION_SPEED` commands. -/
theorem correctionLoop_cmds (direction : TurnDirection) (target_angle : ℚ)
    (start_fix : ℤ) (env : ℕ → ℤ × ℤ × ℚ) :
    ∀ fuel i s s' cmds,
      correctionLoop direction target_angle start_fix env fuel i s = some (s', cmds) →
      ∀ c ∈ cmds, c = sameDirCmd direction ∨ c = oppDirCmd direction := by
  intro fuel
  induction fuel with
  | zero =>
    intro i s s' cmds h c hcmem
    by_cases hc : 1 < |(|s.current_angle| - target_angle)| ∧ (env i).1 - start_fix < 3000 <;>
      simp [correctionLoop, hc] at h
    rw [h.2] at hcmem
    exact absurd hcmem (List.not_mem_nil c)
  | succ fuel ih =>
    intro i s s' cmds h c hcmem
    by_cases hc : 1 < |(|s.current_angle| - target_angle)| ∧ (env i).1 - start_fix < 3000
    · rw [correctionLoop, if_pos hc] at h
      rcases hx : correctionLoop direction target_angle start_fix env fuel (i + 1)
          (updateAngle s (env i).2.1 (env i).2.2) with _ | ⟨s2, cmds2⟩
      · rw [hx] at h
        simp at h
      · rw [hx] at h
        simp only [Option.some.injEq, Prod.mk.injEq] at h
        rw [← h.2] at hcmem
        rcases List.mem_cons.mp hcmem with hhead | htail
        · rw [hhead]
          split
          · exact Or.inl rfl
          · exact Or.inr rfl
        · exact ih (i + 1) (updateAngle s (env i).2.1 (env i).2.2) s2 cmds2 hx c htail
    · simp [correctionLoop, hc] at h
      rw [h.2] at hcmem
      exact absurd hcmem (List.not_mem_nil c)

end Helpers

section Claims

/-- C1: for every call to `turn` made before a calibration has run
(`is_initialized` is `false`), `turn` issues zero motor commands and returns
immediately with the state untouched — a silent no-op, not an error. -/
theorem turn_uncalibrated_noop (s : CarState) (direction : TurnDirection)
    (target_angle : ℚ) (speed : ℤ) (t0 : ℤ) (roughEnv : ℕ → ℤ × ℚ) (start_fix : ℤ)
    (corrEnv : ℕ → ℤ × ℤ × ℚ) (roughFuel corrFuel : ℕ)
    (h : s.is_initialized = false) :
    turn s direction target_angle speed t0 roughEnv start_fix corrEnv roughFuel corrFuel
      = some (s, []) := by
  simp [turn, h]

/-- Witness for C1 at a concrete uncalibrated state. -/
theorem turn_uncalibrated_noop_witness :
    initialState.is_initialized = false ∧
      turn initialState TurnDirection.Left 90 50 0 (fun _ => (0, 0)) 0
          (fun _ => (0, 0, 0)) 5 5
        = some (initialState, []) :=
  ⟨rfl, turn_uncalibrated_noop initialState TurnDirection.Left 90 50 0 (fun _ => (0, 0)) 0
    (fun _ => (0, 0, 0)) 5 5 rfl⟩

/-- C6: after calibration, the stored bias `gyro_offset` equals exactly the
arithmetic mean of the 20 readings taken during calibration, for every possible
sequence of readings. -/
theorem calibration_mean (s : CarState) (readings : ℕ → ℚ) :
    (setupAndCalibrate s readings).gyro_offset
      = (∑ i ∈ Finset.range 20, readings i) / 20 := by
  simp [setupAndCalibrate, calibSum_eq_sum]

/-- C9: for every integer speed input (negative and out-of-range included),
the clamped speed equals `clamp(abs(speed), 20, 100)` — absolute value first,
then clamping — the rough-phase motor values of either direction have exactly
that magnitude, and every completed calibrated `turn` opens its command trace
with exactly that rough-phase command. -/
theorem clampSpeed_spec (speed : ℤ) (direction : TurnDirection) :
    clampSpeed speed = max 20 (min 100 |speed|) ∧
      |(motorVals direction (clampSpeed speed)).1| = clampSpeed speed ∧
      |(motorVals direction (clampSpeed speed)).2| = clampSpeed speed ∧
      (∀ (s : CarState) (target_angle : ℚ) (t0 start_fix : ℤ) (roughEnv : ℕ → ℤ × ℚ)
          (corrEnv : ℕ → ℤ × ℤ × ℚ) (roughFuel corrFuel : ℕ) (st : CarState)
          (cmds : List Cmd),
        s.is_initialized = true →
        turn s direction target_angle speed t0 roughEnv start_fix corrEnv
            roughFuel corrFuel
          = some (st, cmds) →
        cmds.head? = some (Cmd.setAll (motorVals direction (clampSpeed speed)).1
          (motorVals direction (clampSpeed speed)).2)) := by
  have habs : (0 : ℤ) ≤ |speed| := abs_nonneg speed
  have heq : clampSpeed speed = max 20 (min 100 |speed|) := by
    simp only [clampSpeed]
    split <;> split <;> omega
  have hpos : (0 : ℤ) ≤ clampSpeed speed := by rw [heq]; omega
  refine ⟨heq, ?_, ?_, ?_⟩
  · cases direction <;> simp [motorVals, abs_of_nonneg hpos]
  · cases direction <;> simp [motorVals, abs_of_nonneg hpos]
  · intro s target_angle t0 start_fix roughEnv corrEnv roughFuel corrFuel st cmds hinit h
    rcases hr : roughLoop (target_angle - stop_early_buffer (clampSpeed speed)) roughEnv
        roughFuel 0 ⟨s.gyro_offset, t0, 0, true⟩ with _ | s2
    · simp [turn, hinit, hr] at h
    · rcases hc : correctionLoop direction target_angle start_fix corrEnv corrFuel 0 s2 with
        _ | ⟨s3, corrCmds⟩
      · simp [turn, hinit, hr, hc] at h
      · simp only [turn, hinit, hr, hc] at h
        rw [if_neg (by decide : ¬(true = false))] at h
        injection h with h'
        injection h' with ha hb
        rw [← hb]
        rfl

/-- Witness for C9's trace conjunct: speed −150 clamps to 100; the concrete
calibrated `turn` opens with `setAllMotor(100, −100)`. -/
theorem clampSpeed_spec_witness :
    (⟨3, 0, 0, true⟩ : CarState).is_initialized = true ∧
      (turn ⟨3, 0, 0, true⟩ TurnDirection.Right 1 (-150) 0 (fun _ => (0, 0)) 0
          (fun _ => (0, 0, 0)) 1 1
        = some (⟨3, 0, 0, true⟩,
            [Cmd.setAll 100 (-100), Cmd.setAll (-100) 100, Cmd.stopAll, Cmd.stopAll])) ∧
      [Cmd.setAll 100 (-100), Cmd.setAll (-100) 100, Cmd.stopAll, Cmd.stopAll].head?
        = some (Cmd.setAll (motorVals TurnDirection.Right (clampSpeed (-150))).1
            (motorVals TurnDirection.Right (clampSpeed (-150))).2) := by
  have hrun : turn ⟨3, 0, 0, true⟩ TurnDirection.Right 1 (-150) 0 (fun _ => (0, 0)) 0
      (fun _ => (0, 0, 0)) 1 1
      = some (⟨3, 0, 0, true⟩,
          [Cmd.setAll 100 (-100), Cmd.setAll (-100) 100, Cmd.stopAll, Cmd.stopAll]) := by
    norm_num [turn, roughLoop, correctionLoop, stop_early_buffer, clampSpeed, motorVals]
  exact ⟨rfl, hrun,
    (clampSpeed_spec (-150) TurnDirection.Right).2.2.2 ⟨3, 0, 0, true⟩ 1 0 0
      (fun _ => (0, 0)) (fun _ => (0, 0, 0)) 1 1 ⟨3, 0, 0, true⟩
      [Cmd.setAll 100 (-100), Cmd.setAll (-100) 100, Cmd.stopAll, Cmd.stopAll] rfl hrun⟩

/-- C5: starting from `current_angle = 0`, if every reading minus the stored
bias equals a constant rate `R`, then any tick schedule leaves
`current_angle = R * T`, where `T` is the elapsed time in seconds between the
initial `last_time` and the final one — independent of how `T` is split into
ticks. -/
theorem integration_linearity (s : CarState) (ticks : List (ℤ × ℚ)) (R : ℚ)
    (h0 : s.current_angle = 0)
    (hR : ∀ tr ∈ ticks, tr.2 - s.gyro_offset = R) :
    (tickSeq s ticks).current_angle
      = R * (((tickSeq s ticks).last_time - s.last_time : ℤ) : ℚ) / 1000 := by
  rw [tickSeq_linear R ticks s hR, h0, zero_add]

/-- Witness for C5: bias 1, constant reading 3 (rate `R = 2`), two ticks
spanning 250 ms, ending at angle `2 * 250 / 1000 = 1/2`. -/
theorem integration_linearity_witness :
    (⟨1, 0, 0, true⟩ : CarState).current_angle = 0 ∧
      ((3 : ℚ) - (⟨1, 0, 0, true⟩ : CarState).gyro_offset = 2) ∧
      (tickSeq ⟨1, 0, 0, true⟩ [(100, 3), (250, 3)]).current_angle
        = 2 * (((tickSeq ⟨1, 0, 0, true⟩ [(100, 3), (250, 3)]).last_time
            - (⟨1, 0, 0, true⟩ : CarState).last_time : ℤ) : ℚ) / 1000 :=
  ⟨rfl, by norm_num,
    integration_linearity ⟨1, 0, 0, true⟩ [(100, 3), (250, 3)] 2 rfl (by
      intro tr htr
      simp only [List.mem_cons, List.not_mem_nil, or_false] at htr
      rcases htr with rfl | rfl <;> norm_num)⟩

/-- C7: the rough-turn loop has no timeout: with every post-calibration reading
equal to the stored bias (zero calibrated rate) and a target angle above the
stop-early buffer, `turn` returns `none` for every fuel — after any number of
iterations the rough loop is still running, so the source's `turn` never
terminates. -/
theorem turn_rough_no_timeout (s : CarState) (direction : TurnDirection)
    (target_angle : ℚ) (speed : ℤ) (t0 start_fix : ℤ) (roughEnv : ℕ → ℤ × ℚ)
    (corrEnv : ℕ → ℤ × ℤ × ℚ)
    (hinit : s.is_initialized = true)
    (hstuck : ∀ j, (roughEnv j).2 = s.gyro_offset)
    (htarget : stop_early_buffer (clampSpeed speed) < target_angle) :
    ∀ roughFuel corrFuel,
      turn s direction target_angle speed t0 roughEnv start_fix corrEnv roughFuel corrFuel
        = none := by
  intro roughFuel corrFuel
  have hrough : roughLoop (target_angle - stop_early_buffer (clampSpeed speed)) roughEnv
      roughFuel 0 ⟨s.gyro_offset, t0, 0, true⟩ = none := by
    apply roughLoop_stuck
    · intro j
      exact hstuck j
    · show |(0 : ℚ)| < target_angle - stop_early_buffer (clampSpeed speed)
      rw [abs_zero]
      linarith
  simp [turn, hinit, hrough]

/-- Witness for C7: calibrated state with bias 2, readings stuck at 2,
target 90° above the buffer 15°: `turn` exhausts any fuel (here 5). -/
theorem turn_rough_no_timeout_witness :
    (⟨2, 0, 0, true⟩ : CarState).is_initialized = true ∧
      ((fun j => ((j : ℤ), (2 : ℚ))) 0).2 = (⟨2, 0, 0, true⟩ : CarState).gyro_offset ∧
      stop_early_buffer (clampSpeed 50) < (90 : ℚ) ∧
      turn ⟨2, 0, 0, true⟩ TurnDirection.Right 90 50 0 (fun j => ((j : ℤ), (2 : ℚ))) 0
          (fun _ => (0, 0, 0)) 5 5
        = none :=
  ⟨rfl, rfl, by norm_num [stop_early_buffer, clampSpeed],
    turn_rough_no_timeout ⟨2, 0, 0, true⟩ TurnDirection.Right 90 50 0 0
      (fun j => ((j : ℤ), (2 : ℚ))) (fun _ => (0, 0, 0)) rfl (fun j => rfl)
      (by norm_num [stop_early_buffer, clampSpeed]) 5 5⟩

/-- C8 counterexample: run `setupAndCalibrate` from the never-calibrated
initial state with every sensor read failing (the MakeCode runtime hands back
zeroed data instead of raising, so each `readRawGyroZ()` returns `0`).  Contrary
to the claim, no error is surfaced — the call completes normally — the system
does not remain uncalibrated (`is_initialized` becomes `true`; the source even
sets it at line 37, before the first sample), and a bias fabricated from the
failed reads is stored in `gyro_offset`. -/
theorem setupAndCalibrate_no_error_path :
    (setupAndCalibrate initialState failedReadings).is_initialized = true ∧
      (setupAndCalibrate initialState failedReadings).gyro_offset
        = calibSum failedReadings 20 / 20 := by
  constructor <;> rfl

/-- C8 (amended): `setupAndCalibrate` has no error path at all: for every
state and every sequence of values the 20 sensor reads produce (failed i2c
reads included, which the runtime reports as the value `0`, never as an
exception), it marks the system calibrated (`is_initialized = true`) and stores
the mean of those 20 values as `gyro_offset`; no `SensorError` is surfaced to
the caller. -/
theorem setupAndCalibrate_total (s : CarState) (readings : ℕ → ℚ) :
    (setupAndCalibrate s readings).is_initialized = true ∧
      (setupAndCalibrate s readings).gyro_offset
        = (∑ i ∈ Finset.range 20, readings i) / 20 :=
  ⟨rfl, by simp [setupAndCalibrate, calibSum_eq_sum]⟩

/-- C10: `turn` never modifies the calibration state — whenever it completes,
`gyro_offset` and `is_initialized` are unchanged — `setupAndCalibrate` always
leaves `is_initialized` at `true`, and `updateAngle` touches neither field, so
no operation resets `is_initialized` to `false` once it is set. -/
theorem turn_frame (s : CarState) (direction : TurnDirection) (target_angle : ℚ)
    (speed : ℤ) (t0 : ℤ) (roughEnv : ℕ → ℤ × ℚ) (start_fix : ℤ)
    (corrEnv : ℕ → ℤ × ℤ × ℚ) (roughFuel corrFuel : ℕ) :
    (∀ st cmds,
      turn s direction target_angle speed t0 roughEnv start_fix corrEnv roughFuel corrFuel
          = some (st, cmds) →
        st.gyro_offset = s.gyro_offset ∧ st.is_initialized = s.is_initialized) ∧
    (∀ s2 readings, (setupAndCalibrate s2 readings).is_initialized = true) ∧
    (∀ s2 now reading,
      (updateAngle s2 now reading).gyro_offset = s2.gyro_offset ∧
        (updateAngle s2 now reading).is_initialized = s2.is_initialized) := by
  refine ⟨?_, fun s2 readings => rfl, fun s2 now reading => ⟨rfl, rfl⟩⟩
  intro st cmds h
  by_cases hinit : s.is_initialized = false
  · simp [turn, hinit] at h
    simp [← h.1]
  · have hinit' : s.is_initialized = true := by
      cases hb : s.is_initialized
      · exact absurd hb hinit
      · rfl
    rcases hr : roughLoop (target_angle - stop_early_buffer (clampSpeed speed)) roughEnv
        roughFuel 0 ⟨s.gyro_offset, t0, 0, true⟩ with _ | s2
    · simp [turn, hinit, hinit', hr] at h
    · rcases hc : correctionLoop direction target_angle start_fix corrEnv corrFuel 0 s2 with
        _ | ⟨s3, corrCmds⟩
      · simp [turn, hinit, hinit', hr, hc] at h
      · have h2 := roughLoop_frame _ roughEnv roughFuel 0 _ s2 hr
        have h3 := correctionLoop_frame direction target_angle start_fix corrEnv
          corrFuel 0 s2 s3 corrCmds hc
        simp only [turn, hinit', hr, hc] at h
        rw [if_neg (by decide : ¬(true = false))] at h
        injection h with h'
        injection h' with ha hb
        rw [← ha, hinit']
        exact ⟨h3.1.trans h2.1, h3.2.trans h2.2⟩

/-- Witness for C10: a concrete calibrated `turn` that completes, with
`gyro_offset` and `is_initialized` unchanged. -/
theorem turn_frame_witness :
    turn { gyro_offset := 5, last_time := 0, current_angle := 0, is_initialized := true }
        TurnDirection.Right 0 50 0 (fun _ => (0, 0)) 0 (fun _ => (0, 0, 0)) 1 1
      = some ({ gyro_offset := 5, last_time := 0, current_angle := 0, is_initialized := true },
          [Cmd.setAll 50 (-50), Cmd.setAll (-50) 50, Cmd.stopAll, Cmd.stopAll]) ∧
    (5 : ℚ) = (5 : ℚ) ∧ true = true := by
  have hrun : turn
      { gyro_offset := 5, last_time := 0, current_angle := 0, is_initialized := true }
      TurnDirection.Right 0 50 0 (fun _ => (0, 0)) 0 (fun _ => (0, 0, 0)) 1 1
      = some ({ gyro_offset := 5, last_time := 0, current_angle := 0, is_initialized := true },
          [Cmd.setAll 50 (-50), Cmd.setAll (-50) 50, Cmd.stopAll, Cmd.stopAll]) := by
    norm_num [turn, roughLoop, correctionLoop, stop_early_buffer, clampSpeed, motorVals]
  refine ⟨hrun, ?_⟩
  have h := (turn_frame
    { gyro_offset := 5, last_time := 0, current_angle := 0, is_initialized := true }
    TurnDirection.Right 0 50 0 (fun _ => (0, 0)) 0 (fun _ => (0, 0, 0)) 1 1).1
    _ _ hrun
  exact ⟨h.1, h.2⟩

/-- C2: the correction loop returns at once, issuing no further command,
exactly when the deadband is met (`| |current_angle| - target_angle | ≤ 1`) or
3000 ms have elapsed since `start_fix` — whichever happens first; with a clock
that advances at least 1 ms per iteration it is sure to return (no error on
timeout, just a normal result) once the fuel covers the 3000 ms budget; and
every completed calibrated `turn` ends its motor-command trace with the
unconditional `stopAllMotor`. -/
theorem correction_exit_and_stop (direction : TurnDirection) (target_angle : ℚ)
    (start_fix : ℤ) (env : ℕ → ℤ × ℤ × ℚ) :
    (∀ fuel i s,
      correctionLoop direction target_angle start_fix env fuel i s = some (s, []) ↔
        (|(|s.current_angle| - target_angle)| ≤ 1 ∨ 3000 ≤ (env i).1 - start_fix)) ∧
    ((∀ j, (env j).1 + 1 ≤ (env (j + 1)).1) →
      ∀ (fuel i : ℕ) (s : CarState), start_fix + 3000 ≤ (env i).1 + (fuel : ℤ) →
        (correctionLoop direction target_angle start_fix env fuel i s).isSome = true) ∧
    (∀ (s : CarState) (target2 : ℚ) (speed : ℤ) (t0 : ℤ) (roughEnv : ℕ → ℤ × ℚ)
        (roughFuel corrFuel : ℕ) (st : CarState) (cmds : List Cmd),
      s.is_initialized = true →
      turn s direction target2 speed t0 roughEnv start_fix env roughFuel corrFuel
          = some (st, cmds) →
      cmds.getLast? = some Cmd.stopAll) := by
  refine ⟨?_, ?_, ?_⟩
  · intro fuel i s
    constructor
    · intro h
      by_contra hcon
      push_neg at hcon
      cases fuel with
      | zero =>
        rw [correctionLoop, if_pos hcon] at h
        simp at h
      | succ fuel =>
        rw [correctionLoop, if_pos hcon] at h
        rcases hx : correctionLoop direction target_angle start_fix env fuel (i + 1)
            (updateAngle s (env i).2.1 (env i).2.2) with _ | ⟨s2, cmds2⟩
        · rw [hx] at h
          simp at h
        · rw [hx] at h
          simp at h
    · intro h
      have hnc : ¬(1 < |(|s.current_angle| - target_angle)| ∧
          (env i).1 - start_fix < 3000) := by
        rcases h with h | h
        · exact fun hq => absurd h (not_le.mpr hq.1)
        · exact fun hq => absurd h (not_le.mpr hq.2)
      cases fuel with
      | zero => rw [correctionLoop, if_neg hnc]
      | succ fuel => rw [correctionLoop, if_neg hnc]
  · intro hclock fuel
    induction fuel with
    | zero =>
      intro i s hle
      have hnc : ¬(1 < |(|s.current_angle| - target_angle)| ∧
          (env i).1 - start_fix < 3000) := by
        intro hq
        omega
      rw [correctionLoop, if_neg hnc]
      rfl
    | succ fuel ih =>
      intro i s hle
      by_cases hc : 1 < |(|s.current_angle| - target_angle)| ∧ (env i).1 - start_fix < 3000
      · rw [correctionLoop, if_pos hc]
        have hnext : start_fix + 3000 ≤ (env (i + 1)).1 + (fuel : ℤ) := by
          have hstep := hclock i
          push_cast at hle
          omega
        have hrec := ih (i + 1) (updateAngle s (env i).2.1 (env i).2.2) hnext
        rcases hx : correctionLoop direction target_angle start_fix env fuel (i + 1)
            (updateAngle s (env i).2.1 (env i).2.2) with _ | ⟨s2, cmds2⟩
        · rw [hx] at hrec
          simp at hrec
        · rfl
      · rw [correctionLoop, if_neg hc]
        rfl
  · intro s target2 speed t0 roughEnv roughFuel corrFuel st cmds hinit h
    rcases hr : roughLoop (target2 - stop_early_buffer (clampSpeed speed)) roughEnv
        roughFuel 0 ⟨s.gyro_offset, t0, 0, true⟩ with _ | s2
    · simp [turn, hinit, hr] at h
    · rcases hc : correctionLoop direction target2 start_fix env corrFuel 0 s2 with
        _ | ⟨s3, corrCmds⟩
      · simp [turn, hinit, hr, hc] at h
      · simp only [turn, hinit, hr, hc] at h
        rw [if_neg (by decide : ¬(true = false))] at h
        injection h with h'
        injection h' with ha hb
        rw [← hb]
        exact trace_getLast _ _ corrCmds

/-- Witness for C2: a state inside the deadband exits the loop at once; with a
1 ms-per-iteration clock and fuel 3000 the loop certainly returns; a concrete
calibrated `turn` ends its trace with `stopAll`. -/
theorem correction_exit_and_stop_witness :
    (|(|(⟨0, 0, 45, true⟩ : CarState).current_angle| - (45 : ℚ))| ≤ 1) ∧
    (correctionLoop TurnDirection.Right 45 0 (fun _ => (0, 0, 0)) 3 0 ⟨0, 0, 45, true⟩
        = some (⟨0, 0, 45, true⟩, [])) ∧
    (correctionLoop TurnDirection.Right 45 0 (fun j => ((j : ℤ), (j : ℤ), 0)) 3000 0
        ⟨0, 0, 0, true⟩).isSome = true ∧
    (⟨1, 0, 0, true⟩ : CarState).is_initialized = true ∧
    (turn ⟨1, 0, 0, true⟩ TurnDirection.Left 0 30 0 (fun _ => (0, 0)) 0 (fun _ => (0, 0, 0)) 1 1
        = some (⟨1, 0, 0, true⟩,
            [Cmd.setAll (-30) 30, Cmd.setAll 30 (-30), Cmd.stopAll, Cmd.stopAll])) ∧
    [Cmd.setAll (-30) 30, Cmd.setAll 30 (-30), Cmd.stopAll, Cmd.stopAll].getLast?
      = some Cmd.stopAll := by
  have hdead : |(|(⟨0, 0, 45, true⟩ : CarState).current_angle| - (45 : ℚ))| ≤ 1 := by
    show |(|(45 : ℚ)| - 45)| ≤ 1
    rw [abs_of_nonneg (by norm_num : (0 : ℚ) ≤ 45)]
    norm_num
  have hrun : turn ⟨1, 0, 0, true⟩ TurnDirection.Left 0 30 0 (fun _ => (0, 0)) 0
      (fun _ => (0, 0, 0)) 1 1
      = some (⟨1, 0, 0, true⟩,
          [Cmd.setAll (-30) 30, Cmd.setAll 30 (-30), Cmd.stopAll, Cmd.stopAll]) := by
    norm_num [turn, roughLoop, correctionLoop, stop_early_buffer, clampSpeed, motorVals]
  refine ⟨hdead, ?_, ?_, rfl, hrun, ?_⟩
  · exact ((correction_exit_and_stop TurnDirection.Right 45 0 (fun _ => (0, 0, 0))).1 3 0
      ⟨0, 0, 45, true⟩).mpr (Or.inl hdead)
  · exact (correction_exit_and_stop TurnDirection.Right 45 0
      (fun j => ((j : ℤ), (j : ℤ), 0))).2.1
      (by
        intro j
        show (j : ℤ) + 1 ≤ ((j + 1 : ℕ) : ℤ)
        push_cast
        omega)
      3000 0 ⟨0, 0, 0, true⟩ (by norm_num)
  · exact (correction_exit_and_stop TurnDirection.Left 45 0 (fun _ => (0, 0, 0))).2.2
      ⟨1, 0, 0, true⟩ 0 30 0 (fun _ => (0, 0)) 1 1 ⟨1, 0, 0, true⟩
      [Cmd.setAll (-30) 30, Cmd.setAll 30 (-30), Cmd.stopAll, Cmd.stopAll] rfl hrun

/-- C3: on every correction-loop iteration that runs (error above the 1°
deadband, inside the 3000 ms window), the command issued is the fixed-speed
one: the original rotation direction's `CORRECTION_SPEED` pattern when the
updated `|current_angle|` is below `target_angle`, the opposite pattern when it
is at or above it; every correction command is one of those two, and both are
the `motorVals` pattern at `CORRECTION_SPEED` — never the user's requested
speed, and the error's magnitude plays no role. -/
theorem correction_bang_bang (direction : TurnDirection) (target_angle : ℚ)
    (start_fix : ℤ) (env : ℕ → ℤ × ℤ × ℚ) :
    (∀ fuel i s st cmds,
      1 < |(|s.current_angle| - target_angle)| → (env i).1 - start_fix < 3000 →
      correctionLoop direction target_angle start_fix env (fuel + 1) i s = some (st, cmds) →
      cmds.head? = some
        (if |(updateAngle s (env i).2.1 (env i).2.2).current_angle| < target_angle then
          sameDirCmd direction
        else oppDirCmd direction)) ∧
    (∀ fuel i s st cmds,
      correctionLoop direction target_angle start_fix env fuel i s = some (st, cmds) →
      ∀ c ∈ cmds, c = sameDirCmd direction ∨ c = oppDirCmd direction) ∧
    sameDirCmd direction
      = Cmd.setAll (motorVals direction CORRECTION_SPEED).1
          (motorVals direction CORRECTION_SPEED).2 ∧
    oppDirCmd direction
      = Cmd.setAll (-(motorVals direction CORRECTION_SPEED).1)
          (-(motorVals direction CORRECTION_SPEED).2) := by
  refine ⟨?_, correctionLoop_cmds direction target_angle start_fix env, ?_, ?_⟩
  · intro fuel i s st cmds herr htime h
    rw [correctionLoop, if_pos ⟨herr, htime⟩] at h
    rcases hx : correctionLoop direction target_angle start_fix env fuel (i + 1)
        (updateAngle s (env i).2.1 (env i).2.2) with _ | ⟨s2, cmds2⟩
    · rw [hx] at h
      simp at h
    · rw [hx] at h
      simp only [Option.some.injEq, Prod.mk.injEq] at h
      rw [← h.2]
      rfl
  · cases direction <;> rfl
  · cases direction <;> rfl

/-- Witness for C3: angle 0, target 45 (undershoot, inside the window): the
single iteration issues the original-direction command at speed 25. -/
theorem correction_bang_bang_witness :
    (1 : ℚ) < |(|(⟨0, 0, 0, true⟩ : CarState).current_angle| - (45 : ℚ))| ∧
    ((fun j => ((3000 * j : ℤ), (0 : ℤ), (0 : ℚ))) 0).1 - 0 < 3000 ∧
    (correctionLoop TurnDirection.Right 45 0 (fun j => ((3000 * j : ℤ), (0 : ℤ), (0 : ℚ)))
        1 0 ⟨0, 0, 0, true⟩
      = some (⟨0, 0, 0, true⟩, [Cmd.setAll 25 (-25)])) ∧
    [Cmd.setAll 25 (-25)].head? = some
      (if |(updateAngle ⟨0, 0, 0, true⟩
            ((fun j => ((3000 * j : ℤ), (0 : ℤ), (0 : ℚ))) 0).2.1
            ((fun j => ((3000 * j : ℤ), (0 : ℤ), (0 : ℚ))) 0).2.2).current_angle| < (45 : ℚ) then
        sameDirCmd TurnDirection.Right
      else oppDirCmd TurnDirection.Right) := by
  have herr : (1 : ℚ) < |(|(⟨0, 0, 0, true⟩ : CarState).current_angle| - (45 : ℚ))| := by
    show (1 : ℚ) < |(|(0 : ℚ)| - 45)|
    norm_num
  have htime : ((fun j => ((3000 * j : ℤ), (0 : ℤ), (0 : ℚ))) 0).1 - 0 < 3000 := by
    norm_num
  have hloop : correctionLoop TurnDirection.Right 45 0
      (fun j => ((3000 * j : ℤ), (0 : ℤ), (0 : ℚ))) 1 0 ⟨0, 0, 0, true⟩
      = some (⟨0, 0, 0, true⟩, [Cmd.setAll 25 (-25)]) := by
    norm_num [correctionLoop, updateAngle, sameDirCmd, CORRECTION_SPEED]
  exact ⟨herr, htime, hloop,
    (correction_bang_bang TurnDirection.Right 45 0
        (fun j => ((3000 * j : ℤ), (0 : ℤ), (0 : ℚ)))).1
      0 0 ⟨0, 0, 0, true⟩ ⟨0, 0, 0, true⟩ [Cmd.setAll 25 (-25)] herr htime hloop⟩

/-- C4: in every calibrated `turn`, the early-stop buffer is 8° exactly when
the clamped speed is below 40 and 15° otherwise; the rough loop keeps running
exactly while `|current_angle| < target_angle - buffer` and stops exactly when
that fails; and when `target_angle` is no larger than the buffer, the loop body
runs zero times from the reset angle, returning the entry state unchanged. -/
theorem buffer_and_rough_exit (speed : ℤ) (target_angle : ℚ) (env : ℕ → ℤ × ℚ) :
    (clampSpeed speed < 40 → stop_early_buffer (clampSpeed speed) = 8) ∧
    (40 ≤ clampSpeed speed → stop_early_buffer (clampSpeed speed) = 15) ∧
    (∀ fuel i s, |s.current_angle| < target_angle - stop_early_buffer (clampSpeed speed) →
      roughLoop (target_angle - stop_early_buffer (clampSpeed speed)) env (fuel + 1) i s
        = roughLoop (target_angle - stop_early_buffer (clampSpeed speed)) env fuel (i + 1)
            (updateAngle s (env i).1 (env i).2)) ∧
    (∀ fuel i s, ¬|s.current_angle| < target_angle - stop_early_buffer (clampSpeed speed) →
      roughLoop (target_angle - stop_early_buffer (clampSpeed speed)) env fuel i s
        = some s) ∧
    (target_angle ≤ stop_early_buffer (clampSpeed speed) →
      ∀ fuel i s, s.current_angle = 0 →
        roughLoop (target_angle - stop_early_buffer (clampSpeed speed)) env fuel i s
          = some s) := by
  refine ⟨?_, ?_, ?_, ?_, ?_⟩
  · intro h
    rw [stop_early_buffer, if_pos h]
  · intro h
    rw [stop_early_buffer, if_neg (not_lt.mpr h)]
  · intro fuel i s h
    rw [roughLoop, if_pos h]
  · intro fuel i s h
    cases fuel with
    | zero => rw [roughLoop, if_neg h]
    | succ fuel => rw [roughLoop, if_neg h]
  · intro htarget fuel i s hangle
    have h : ¬|s.current_angle| < target_angle - stop_early_buffer (clampSpeed speed) := by
      rw [hangle, abs_zero]
      intro hq
      linarith
    cases fuel with
    | zero => rw [roughLoop, if_neg h]
    | succ fuel => rw [roughLoop, if_neg h]

/-- Witness for C4: speed 30 clamps to 30 (< 40), selecting the 8° buffer, and
a 5° target (≤ 8°) makes the rough loop return its entry state at once. -/
theorem buffer_and_rough_exit_witness :
    clampSpeed 30 < 40 ∧ stop_early_buffer (clampSpeed 30) = 8 ∧
      (5 : ℚ) ≤ stop_early_buffer (clampSpeed 30) ∧
      (⟨0, 0, 0, true⟩ : CarState).current_angle = 0 ∧
      roughLoop ((5 : ℚ) - stop_early_buffer (clampSpeed 30)) (fun _ => (0, 0)) 2 0
          ⟨0, 0, 0, true⟩
        = some ⟨0, 0, 0, true⟩ :=
  ⟨by norm_num [clampSpeed],
    (buffer_and_rough_exit 30 5 (fun _ => (0, 0))).1 (by norm_num [clampSpeed]),
    by norm_num [stop_early_buffer, clampSpeed],
    rfl,
    (buffer_and_rough_exit 30 5 (fun _ => (0, 0))).2.2.2.2
      (by norm_num [stop_early_buffer, clampSpeed]) 2 0 ⟨0, 0, 0, true⟩ rfl⟩

end Claims

end smartCar
